import Mathlib

/-!
Verification of `blk.env.client.SegmentRenderer` (src/blk/env/client/segmentrenderer.js).

The segment renderer meshes a 16x16x16 slab of a chunk into textured quads.
`build()` runs two passes: a fast interior pass over the inner 14x14 footprint
(all neighbors in the local flat array) and a slow boundary pass (`addFaces_`)
over the outer ring, which may consult the four lateral neighbor chunks.

The shallow embedding below translates those two passes and the renderer's
lifecycle state (dirty flag, face buffer, size accounting) into Lean.
Packed cell values, block/material catalog lookups and the texture atlas are
modelled as plain functions; JavaScript 32-bit shifts on packed cells are
Nat shifts, which agree with the source because cells are 24-bit packed
values (see `Chunk.blockData`).
-/

namespace BlkSpec

/-- `blk.env.client.SegmentRenderer.SIZE`: size, in blocks, of a segment. -/
def SIZE : Nat := 16

/-- Modelled from the spec: `blk.env.Chunk.SIZE_XZ` (chunk footprint size,
16, spec section 8 example "chunk 16x256x16"); `blk.env.Chunk` is not in src. -/
def SIZE_XZ : Nat := 16

/-- Modelled from the spec: `blk.env.Chunk.SIZE_Y` (chunk height, 256 per the
spec's 16x256x16 example); `blk.env.Chunk` is not in src. -/
def SIZE_Y : Nat := 256

/-- Modelled from the spec: `blk.env.Chunk.STRIDE_Z`, the precomputed Z stride
of the flat block array (`SIZE_XZ`). -/
def STRIDE_Z : Nat := 16

/-- Modelled from the spec: `blk.env.Chunk.STRIDE_Y`, the precomputed Y stride
of the flat block array (`SIZE_XZ * SIZE_XZ`). -/
def STRIDE_Y : Nat := 256

/-- Modelled from the spec: `blk.env.MaterialFlags.MERGE` is a designated bit
of the material flags bitset; its concrete value is not in src, bit 0 is taken
as representative (no claim depends on which bit it is). -/
def MERGE : Nat := 1

/-- Modelled from the spec: a material exposes a flags bitset
(`BlockDescriptor.material.flags`). -/
structure Material where
  flags : Nat

/-- Modelled from the spec: a block descriptor exposes a material and a
face-slot resolver `getFaceSlot(x, y, z, face, metadata, data) -> slotIndex`. -/
structure Block where
  material : Material
  getFaceSlot : Nat → Nat → Nat → Nat → Nat → Nat → Nat

/-- Modelled from the spec: the block catalog, `getBlockWithId(id)`. -/
structure BlockSet where
  getBlockWithId : Nat → Block

/-- Modelled from the spec: a chunk at world coordinates `(x, y, z)` holding a
flat strided array of packed cells. The spec's packed cell format is a 16-bit
data/variant field, a metadata byte at bits 16..23, and the block id as the
high bits from bit 8 up; the stored fixed-width integers therefore carry 24
bits, which `blockData` enforces. -/
structure Chunk where
  x : Int
  y : Int
  z : Int
  cells : Nat → Nat

/-- The flat block array read: a 24-bit packed cell. -/
def Chunk.blockData (c : Chunk) (i : Nat) : Nat := c.cells i % 16777216

/-- Modelled from the spec: `Chunk.getBlock(x, y, z)` returns the packed cell
at the given world coordinate, resolved against this chunk's flat array
(world minus chunk origin, with the precomputed strides). -/
def Chunk.getBlock (c : Chunk) (wx : Int) (wy : Nat) (wz : Int) : Nat :=
  c.blockData ((wx - c.x).toNat + (wz - c.z).toNat * STRIDE_Z + wy * STRIDE_Y)

/-- The renderer's external collaborators: the block set (catalog), the block
atlas (`getSlotCoords`, abstracted to one value per slot) and the chunk view
(`view.getChunk`, `none` when the chunk is not loaded). -/
structure Env where
  blockSet : BlockSet
  atlas : Nat → Nat
  view : Int → Int → Int → Option Chunk

/-- One quad handed to `blockBuilder_.addFace(face, bx, by - this.by, bz,
texCoords)`. -/
structure Quad where
  face : Nat
  x : Nat
  y : Nat
  z : Nat
  texCoords : Nat
deriving DecidableEq, Repr

/-- Flat array offset `bo = bx + bz * STRIDE_Z + by * STRIDE_Y`. -/
def cellIndex (bx byv bz : Nat) : Nat := bx + bz * STRIDE_Z + byv * STRIDE_Y

/-- Interior-pass neighbor ids (`neighbors[0..5]` of `build`, lines 321-328):
straight strided reads for the four lateral directions, air above the chunk
top, the cell itself below the chunk bottom. Stores go through the
`Uint16Array` scratch, hence `% 65536`. The loop variable `by` is
non-negative, so the source's `by <= 0` is `byv = 0`. -/
def interiorNeighbors (c : Chunk) (byv bo data : Nat) : Nat → Nat := fun n =>
  match n with
  | 0 => (c.blockData (bo + STRIDE_Z) >>> 8) % 65536
  | 1 => (c.blockData (bo - STRIDE_Z) >>> 8) % 65536
  | 2 => (if SIZE_Y - 1 ≤ byv then 0 else c.blockData (bo + STRIDE_Y) >>> 8) % 65536
  | 3 => ((if byv = 0 then data else c.blockData (bo - STRIDE_Y)) >>> 8) % 65536
  | 4 => (c.blockData (bo + 1) >>> 8) % 65536
  | _ => (c.blockData (bo - 1) >>> 8) % 65536

/-- Boundary-pass neighbor ids (`neighbors[0..5]` of `addFaces_`, lines
435-462): a lateral read that crosses the chunk edge goes through the cached
neighbor chunk (`0` when that chunk is not loaded); everything else reads the
local array exactly as the interior pass does. -/
def boundaryNeighbors (c : Chunk) (nc : Fin 4 → Option Chunk)
    (bx bz byv bo data : Nat) : Nat → Nat := fun n =>
  match n with
  | 0 => (if bz = SIZE - 1 then
            (match nc 3 with
             | some ch => ch.getBlock (c.x + bx) byv (c.z + bz + 1) >>> 8
             | none => 0)
          else c.blockData (bo + STRIDE_Z) >>> 8) % 65536
  | 1 => (if bz = 0 then
            (match nc 2 with
             | some ch => ch.getBlock (c.x + bx) byv (c.z + bz - 1) >>> 8
             | none => 0)
          else c.blockData (bo - STRIDE_Z) >>> 8) % 65536
  | 2 => (if SIZE_Y - 1 ≤ byv then 0 else c.blockData (bo + STRIDE_Y) >>> 8) % 65536
  | 3 => ((if byv = 0 then data else c.blockData (bo - STRIDE_Y)) >>> 8) % 65536
  | 4 => (if bx = SIZE - 1 then
            (match nc 1 with
             | some ch => ch.getBlock (c.x + bx + 1) byv (c.z + bz) >>> 8
             | none => 0)
          else c.blockData (bo + 1) >>> 8) % 65536
  | _ => (if bx = 0 then
            (match nc 0 with
             | some ch => ch.getBlock (c.x + bx - 1) byv (c.z + bz) >>> 8
             | none => 0)
          else c.blockData (bo - 1) >>> 8) % 65536

/-- Interior-pass face visibility test (lines 331-334): the neighbor id is 0,
or it is a different id whose material carries the MERGE bit. -/
def interiorVisible (bs : BlockSet) (data nbr : Nat) : Bool :=
  nbr == 0 || (nbr != data >>> 8 &&
    ((bs.getBlockWithId nbr).material.flags &&& MERGE != 0))

/-- Boundary-pass face visibility test (lines 466-469), textually identical to
the interior pass's. -/
def boundaryVisible (bs : BlockSet) (data nbr : Nat) : Bool :=
  nbr == 0 || (nbr != data >>> 8 &&
    ((bs.getBlockWithId nbr).material.flags &&& MERGE != 0))

/-- Faces emitted for one cell of the interior pass (`build`, lines 316-347):
skip air cells, then for `n = 0..5` emit a quad when the neighbor test passes,
with the face slot resolved from the decoded metadata and data fields. -/
def interiorCellFaces (e : Env) (c : Chunk) (segBy byv bz bx : Nat) : List Quad :=
  let bo := cellIndex bx byv bz
  let data := c.blockData bo
  if data >>> 8 = 0 then []
  else
    (List.range 6).filterMap fun n =>
      if interiorVisible e.blockSet data (interiorNeighbors c byv bo data n) then
        some { face := n, x := bx, y := byv - segBy, z := bz,
               texCoords := e.atlas
                 ((e.blockSet.getBlockWithId (data >>> 8)).getFaceSlot
                   bx byv bz n ((data >>> 16) % 256) (data % 65536)) }
      else none

/-- Faces emitted for one cell of the boundary pass (`addFaces_`, lines
428-483 body for one `by`). -/
def addFacesCell (e : Env) (c : Chunk) (segBy bx bz byv : Nat)
    (nc : Fin 4 → Option Chunk) : List Quad :=
  let bo := cellIndex bx byv bz
  let data := c.blockData bo
  if data >>> 8 = 0 then []
  else
    (List.range 6).filterMap fun n =>
      if boundaryVisible e.blockSet data (boundaryNeighbors c nc bx bz byv bo data n) then
        some { face := n, x := bx, y := byv - segBy, z := bz,
               texCoords := e.atlas
                 ((e.blockSet.getBlockWithId (data >>> 8)).getFaceSlot
                   bx byv bz n ((data >>> 16) % 256) (data % 65536)) }
      else none

/-- `addFaces_(bx, bymin, bymax, bz, neighborChunks)`: one boundary column,
`by` ascending from `bymin` to `bymax`; `segBy` is `this.by` (the caller
passes `bymin = this.by`). -/
def addFaces (e : Env) (c : Chunk) (segBy bx bymin bymax bz : Nat)
    (nc : Fin 4 → Option Chunk) : List Quad :=
  (List.range (bymax + 1 - bymin)).flatMap fun i =>
    addFacesCell e c segBy bx bz (bymin + i) nc

/-- The fast interior pass of `build` (lines 313-350): all 16 Y layers, X and
Z restricted to `1..SIZE-2`. -/
def interiorPass (e : Env) (c : Chunk) (segBy : Nat) : List Quad :=
  (List.range SIZE).flatMap fun dy =>
    (List.range (SIZE - 2)).flatMap fun dz =>
      (List.range (SIZE - 2)).flatMap fun dx =>
        interiorCellFaces e c segBy (segBy + dy) (1 + dz) (1 + dx)

/-- The four cached lateral neighbor chunks (`build`, lines 354-363). -/
def buildNeighborChunks (e : Env) (c : Chunk) : Fin 4 → Option Chunk := fun i =>
  match i with
  | 0 => e.view (c.x - (SIZE_XZ : Int)) c.y c.z
  | 1 => e.view (c.x + (SIZE_XZ : Int)) c.y c.z
  | 2 => e.view c.x c.y (c.z - (SIZE_XZ : Int))
  | 3 => e.view c.x c.y (c.z + (SIZE_XZ : Int))

/-- The slow boundary pass of `build` (lines 365-388): four outer rings, each
of length `SIZE - 1`, in the source's fixed order. -/
def boundaryPass (e : Env) (c : Chunk) (segBy : Nat)
    (nc : Fin 4 → Option Chunk) : List Quad :=
  ((List.range (SIZE - 1)).flatMap fun bz =>
      addFaces e c segBy 0 segBy (segBy + SIZE - 1) bz nc)
  ++ ((List.range (SIZE - 1)).flatMap fun bx =>
      addFaces e c segBy bx segBy (segBy + SIZE - 1) (SIZE - 1) nc)
  ++ ((List.range (SIZE - 1)).flatMap fun i =>
      addFaces e c segBy (SIZE - 1) segBy (segBy + SIZE - 1) (1 + i) nc)
  ++ ((List.range (SIZE - 1)).flatMap fun i =>
      addFaces e c segBy (1 + i) segBy (segBy + SIZE - 1) 0 nc)

/-- The full face list produced by one `build()` call, in emission order. -/
def buildFaces (e : Env) (c : Chunk) (segBy : Nat) : List Quad :=
  interiorPass e c segBy ++ boundaryPass e c segBy (buildNeighborChunks e c)

/-- Modelled from the spec: byte size per face reported by
`blockBuilder_.finish` (the exact per-face size is not in src; claims only
use proportionality to the face count). -/
def BYTES_PER_FACE : Nat := 64

/-- Modelled from the spec: elements per face reported by
`blockBuilder_.finish` (6 indices per quad; the exact count is not in src). -/
def ELEMENTS_PER_FACE : Nat := 6

/-- Modelled from the spec: the result record of `blockBuilder_.finish` — the
packed buffer, its element count and its byte size. -/
structure FinishResults where
  buffer : Option (List Quad)
  elementCount : Nat
  bytesUsed : Nat

/-- Modelled from the spec: `blockBuilder_.finish` packs the accumulated face
list into a buffer and reports element count and byte size. -/
def finishBuild (faces : List Quad) : FinishResults :=
  { buffer := some faces,
    elementCount := ELEMENTS_PER_FACE * faces.length,
    bytesUsed := BYTES_PER_FACE * faces.length }

/-- The mutable state of one `blk.env.client.SegmentRenderer`. -/
structure SegmentRenderer where
  chunk : Chunk
  segBy : Nat
  worldMatrix : Int × Int × Int
  boundingSphere : Int × Int × Int × Int
  dirty : Bool
  faceBuffer : Option (List Quad)
  faceBufferElementCount : Nat
  estimatedSize : Nat
  sortKey : Int
  lastFrameInViewport : Nat
  queuedForBuild : Bool
  queuePriority : Nat
  debugVisuals : Bool
  debugLineBuffer : Option Unit

/-- The constructor (lines 46-192): dirty, no buffer, zero size accounting. -/
def SegmentRenderer.create (chunk : Chunk) (segBy : Nat) : SegmentRenderer :=
  { chunk := chunk
    segBy := segBy
    worldMatrix := (chunk.x, chunk.y + segBy, chunk.z)
    boundingSphere := (chunk.x + 8, chunk.y + segBy + 8, chunk.z + 8, SIZE)
    dirty := true
    faceBuffer := none
    faceBufferElementCount := 0
    estimatedSize := 0
    sortKey := 0
    lastFrameInViewport := 0
    queuedForBuild := false
    queuePriority := 0
    debugVisuals := false
    debugLineBuffer := none }

/-- `build()` (lines 296-405): clear dirty, mesh both passes, finish the
buffer, update the size accounting and return the size delta. -/
def SegmentRenderer.build (e : Env) (s : SegmentRenderer) :
    SegmentRenderer × Int :=
  let faces := buildFaces e s.chunk s.segBy
  let results := finishBuild faces
  ({ s with dirty := false
            faceBuffer := results.buffer
            faceBufferElementCount := results.elementCount
            estimatedSize := results.bytesUsed },
   (results.bytesUsed : Int) - (s.estimatedSize : Int))

/-- `discard()` (lines 242-257): delete the face buffer, zero the element
count and size accounting, drop the debug line buffer. -/
def SegmentRenderer.discard (s : SegmentRenderer) : SegmentRenderer :=
  { s with faceBuffer := none
           faceBufferElementCount := 0
           estimatedSize := 0
           debugLineBuffer := none }

/-- `invalidate()` (lines 281-283): mark the geometry out of date. -/
def SegmentRenderer.invalidate (s : SegmentRenderer) : SegmentRenderer :=
  { s with dirty := true }

/-- A draw call issued by `render` via `blockBuilder_.draw`. -/
structure DrawCall where
  buffer : Option (List Quad)
  elementCount : Nat
deriving DecidableEq

/-- `render(frame, viewport)` (lines 539-545): draw the current buffer when
the element count is non-zero; no state is written. -/
def SegmentRenderer.render (s : SegmentRenderer) :
    SegmentRenderer × Option DrawCall :=
  (s, if s.faceBufferElementCount ≠ 0 then
        some { buffer := s.faceBuffer, elementCount := s.faceBufferElementCount }
      else none)

/-- The byte size of a held buffer (0 when no buffer is held). -/
def bufferBytes : Option (List Quad) → Nat
  | none => 0
  | some f => BYTES_PER_FACE * f.length

/-- The spec's size-accounting invariant: `estimatedSize` reflects the buffer
currently held. -/
def sizeInv (s : SegmentRenderer) : Prop :=
  s.estimatedSize = bufferBytes s.faceBuffer

/-- `n` consecutive `build()` calls, returning the final state and the sum of
the returned size deltas. -/
def buildRun (e : Env) : Nat → SegmentRenderer → SegmentRenderer × Int
  | 0, s => (s, 0)
  | n + 1, s =>
    let r := s.build e
    let rest := buildRun e n r.1
    (rest.1, r.2 + rest.2)

/-! ## Helper lemmas -/

/-- The quad both passes hand to `blockBuilder_.addFace` for cell
`(bx, byv, bz)` and face `n`. -/
def emittedQuad (e : Env) (c : Chunk) (segBy byv bz bx n : Nat) : Quad :=
  { face := n, x := bx, y := byv - segBy, z := bz,
    texCoords := e.atlas
      ((e.blockSet.getBlockWithId (c.blockData (cellIndex bx byv bz) >>> 8)).getFaceSlot
        bx byv bz n ((c.blockData (cellIndex bx byv bz) >>> 16) % 256)
        (c.blockData (cellIndex bx byv bz) % 65536)) }

/-! ## Concrete fixtures used by witnesses and counterexamples -/

/-- A concrete catalog: block 7 carries the MERGE bit, every other block has
empty flags; the face slot encodes its arguments injectively enough for the
checks below. -/
def wBlockSet : BlockSet :=
  ⟨fun i => ⟨⟨if i = 7 then 1 else 0⟩,
             fun x yv z f m d => x + yv + z + f + m + d + i⟩⟩

/-- A concrete environment with no loaded neighbor chunks. -/
def wEnv : Env := ⟨wBlockSet, id, fun _ _ _ => none⟩

/-- A chunk with a single solid block (id 1) at local `(5, 5, 5)`. -/
def wChunk : Chunk := ⟨0, 0, 0, fun i => if i = cellIndex 5 5 5 then 256 else 0⟩

/-- The four chunk-edge crossings of the boundary pass: at ring position
`(bx, bz)`, face `n` reads its lateral neighbor from a neighbor chunk. -/
def crossing (bx bz n : Nat) : Prop :=
  (n = 0 ∧ bz = SIZE - 1) ∨ (n = 1 ∧ bz = 0) ∨
  (n = 4 ∧ bx = SIZE - 1) ∨ (n = 5 ∧ bx = 0)

/-- The cached neighbor chunk consulted for a crossing face `n`
(`neighborChunks[3]`, `[2]`, `[1]`, `[0]` respectively). -/
def lateralChunk (nc : Fin 4 → Option Chunk) (n : Nat) : Option Chunk :=
  match n with
  | 0 => nc 3
  | 1 => nc 2
  | 4 => nc 1
  | 5 => nc 0
  | _ => none

/-- The block id read from a loaded neighbor chunk for a crossing face `n`. -/
def lateralNeighborId (c ch : Chunk) (bx bz byv n : Nat) : Nat :=
  match n with
  | 0 => ch.getBlock (c.x + bx) byv (c.z + bz + 1) >>> 8
  | 1 => ch.getBlock (c.x + bx) byv (c.z + bz - 1) >>> 8
  | 4 => ch.getBlock (c.x + bx + 1) byv (c.z + bz) >>> 8
  | _ => ch.getBlock (c.x + bx - 1) byv (c.z + bz) >>> 8

/-- A chunk with a single solid block (id 1) on the `+Z` boundary ring, at
local `(3, 2, 15)`. -/
def c4Chunk : Chunk := ⟨0, 0, 0, fun i => if i = cellIndex 3 2 15 then 256 else 0⟩

/-- A chunk with a solid block at interior position `(1, 1, 1)` and another at
boundary position `(0, 0, 0)`: `build()` emits the interior block's faces
(segment-local Y = 1) before the boundary block's (Y = 0). -/
def c3Chunk : Chunk :=
  ⟨0, 0, 0, fun i => if i = cellIndex 1 1 1 then 256 else if i = 0 then 256 else 0⟩

/-- A catalog that agrees with `wBlockSet` on every id except 0. -/
def wBlockSet0 : BlockSet :=
  ⟨fun i => if i = 0 then ⟨⟨123⟩, fun _ _ _ _ _ _ => 999⟩
            else wBlockSet.getBlockWithId i⟩

/-! ## Helper lemmas and claims -/


theorem mem_interiorCellFaces_iff {e : Env} {c : Chunk} {segBy byv bz bx : Nat}
    {q : Quad} :
    q ∈ interiorCellFaces e c segBy byv bz bx ↔
      c.blockData (cellIndex bx byv bz) >>> 8 ≠ 0 ∧
      ∃ n, n < 6 ∧
        interiorVisible e.blockSet (c.blockData (cellIndex bx byv bz))
          (interiorNeighbors c byv (cellIndex bx byv bz)
            (c.blockData (cellIndex bx byv bz)) n) = true ∧
        q = emittedQuad e c segBy byv bz bx n := by
  unfold interiorCellFaces emittedQuad
  by_cases hsolid : c.blockData (cellIndex bx byv bz) >>> 8 = 0
  · simp [hsolid]
  · rw [if_neg hsolid]
    simp only [List.mem_filterMap, List.mem_range, hsolid, ne_eq,
      not_false_iff, true_and]
    constructor
    · rintro ⟨m, hm, hq⟩
      by_cases h : interiorVisible e.blockSet (c.blockData (cellIndex bx byv bz))
          (interiorNeighbors c byv (cellIndex bx byv bz)
            (c.blockData (cellIndex bx byv bz)) m) = true
      · rw [if_pos h] at hq
        exact ⟨m, hm, h, (Option.some_inj.mp hq).symm⟩
      · rw [if_neg h] at hq
        cases hq
    · rintro ⟨m, hm, h, rfl⟩
      exact ⟨m, hm, by rw [if_pos h]⟩

theorem mem_addFacesCell_iff {e : Env} {c : Chunk} {segBy bx bz byv : Nat}
    {nc : Fin 4 → Option Chunk} {q : Quad} :
    q ∈ addFacesCell e c segBy bx bz byv nc ↔
      c.blockData (cellIndex bx byv bz) >>> 8 ≠ 0 ∧
      ∃ n, n < 6 ∧
        boundaryVisible e.blockSet (c.blockData (cellIndex bx byv bz))
          (boundaryNeighbors c nc bx bz byv (cellIndex bx byv bz)
            (c.blockData (cellIndex bx byv bz)) n) = true ∧
        q = emittedQuad e c segBy byv bz bx n := by
  unfold addFacesCell emittedQuad
  by_cases hsolid : c.blockData (cellIndex bx byv bz) >>> 8 = 0
  · simp [hsolid]
  · rw [if_neg hsolid]
    simp only [List.mem_filterMap, List.mem_range, hsolid, ne_eq,
      not_false_iff, true_and]
    constructor
    · rintro ⟨m, hm, hq⟩
      by_cases h : boundaryVisible e.blockSet (c.blockData (cellIndex bx byv bz))
          (boundaryNeighbors c nc bx bz byv (cellIndex bx byv bz)
            (c.blockData (cellIndex bx byv bz)) m) = true
      · rw [if_pos h] at hq
        exact ⟨m, hm, h, (Option.some_inj.mp hq).symm⟩
      · rw [if_neg h] at hq
        cases hq
    · rintro ⟨m, hm, h, rfl⟩
      exact ⟨m, hm, by rw [if_pos h]⟩

/-- The visibility test, in propositional form (both passes use the same
textual condition). -/
theorem interiorVisible_iff {bs : BlockSet} {data nbr : Nat} :
    interiorVisible bs data nbr = true ↔
      nbr = 0 ∨ (nbr ≠ data >>> 8 ∧
        (bs.getBlockWithId nbr).material.flags &&& MERGE ≠ 0) := by
  unfold interiorVisible
  simp [Bool.or_eq_true, Bool.and_eq_true, ne_eq]

theorem boundaryVisible_iff {bs : BlockSet} {data nbr : Nat} :
    boundaryVisible bs data nbr = true ↔
      nbr = 0 ∨ (nbr ≠ data >>> 8 ∧
        (bs.getBlockWithId nbr).material.flags &&& MERGE ≠ 0) := by
  unfold boundaryVisible
  simp [Bool.or_eq_true, Bool.and_eq_true, ne_eq]

theorem blockData_lt (c : Chunk) (i : Nat) : c.blockData i < 16777216 :=
  Nat.mod_lt _ (by norm_num)

theorem blockId_lt (c : Chunk) (i : Nat) : c.blockData i >>> 8 < 65536 := by
  have h := blockData_lt c i
  have : c.blockData i >>> 8 = c.blockData i / 256 := by
    simp [Nat.shiftRight_eq_div_pow]
  omega

/-- Both visibility tests are the same textual condition. -/
theorem boundaryVisible_eq_interiorVisible : boundaryVisible = interiorVisible := rfl


/-! ## Claims -/

/-- C1: During `build()`, for every solid cell (block id ≠ 0) and every face
direction `n` in 0..5, a quad is emitted for that cell and direction if and
only if the neighbor id in that direction is 0, or the neighbor id differs
from the cell's id and the neighbor's material flags include the MERGE bit;
a neighbor of the same block id never yields a face. The rule is applied
identically in the interior pass and the boundary pass (each computing its
neighbor ids as the source does). -/
theorem C1_face_visibility_rule (e : Env) (c : Chunk) (segBy byv bz bx n : Nat)
    (nc : Fin 4 → Option Chunk)
    (hsolid : c.blockData (cellIndex bx byv bz) >>> 8 ≠ 0) (hn : n < 6) :
    ((∃ q ∈ interiorCellFaces e c segBy byv bz bx, q.face = n) ↔
      (interiorNeighbors c byv (cellIndex bx byv bz)
          (c.blockData (cellIndex bx byv bz)) n = 0 ∨
       (interiorNeighbors c byv (cellIndex bx byv bz)
          (c.blockData (cellIndex bx byv bz)) n ≠
            c.blockData (cellIndex bx byv bz) >>> 8 ∧
        (e.blockSet.getBlockWithId (interiorNeighbors c byv (cellIndex bx byv bz)
          (c.blockData (cellIndex bx byv bz)) n)).material.flags &&& MERGE ≠ 0))) ∧
    ((∃ q ∈ addFacesCell e c segBy bx bz byv nc, q.face = n) ↔
      (boundaryNeighbors c nc bx bz byv (cellIndex bx byv bz)
          (c.blockData (cellIndex bx byv bz)) n = 0 ∨
       (boundaryNeighbors c nc bx bz byv (cellIndex bx byv bz)
          (c.blockData (cellIndex bx byv bz)) n ≠
            c.blockData (cellIndex bx byv bz) >>> 8 ∧
        (e.blockSet.getBlockWithId (boundaryNeighbors c nc bx bz byv
          (cellIndex bx byv bz) (c.blockData (cellIndex bx byv bz)) n)).material.flags
            &&& MERGE ≠ 0))) ∧
    (interiorNeighbors c byv (cellIndex bx byv bz)
        (c.blockData (cellIndex bx byv bz)) n =
          c.blockData (cellIndex bx byv bz) >>> 8 →
      ¬ ∃ q ∈ interiorCellFaces e c segBy byv bz bx, q.face = n) ∧
    (boundaryNeighbors c nc bx bz byv (cellIndex bx byv bz)
        (c.blockData (cellIndex bx byv bz)) n =
          c.blockData (cellIndex bx byv bz) >>> 8 →
      ¬ ∃ q ∈ addFacesCell e c segBy bx bz byv nc, q.face = n) := by
  have hi : (∃ q ∈ interiorCellFaces e c segBy byv bz bx, q.face = n) ↔
      interiorVisible e.blockSet (c.blockData (cellIndex bx byv bz))
        (interiorNeighbors c byv (cellIndex bx byv bz)
          (c.blockData (cellIndex bx byv bz)) n) = true := by
    constructor
    · rintro ⟨q, hq, hf⟩
      obtain ⟨-, m, hm, hvis, rfl⟩ := mem_interiorCellFaces_iff.mp hq
      have hmn : m = n := hf
      rw [← hmn]
      exact hvis
    · intro h
      exact ⟨emittedQuad e c segBy byv bz bx n,
        mem_interiorCellFaces_iff.mpr ⟨hsolid, n, hn, h, rfl⟩, rfl⟩
  have hb : (∃ q ∈ addFacesCell e c segBy bx bz byv nc, q.face = n) ↔
      boundaryVisible e.blockSet (c.blockData (cellIndex bx byv bz))
        (boundaryNeighbors c nc bx bz byv (cellIndex bx byv bz)
          (c.blockData (cellIndex bx byv bz)) n) = true := by
    constructor
    · rintro ⟨q, hq, hf⟩
      obtain ⟨-, m, hm, hvis, rfl⟩ := mem_addFacesCell_iff.mp hq
      have hmn : m = n := hf
      rw [← hmn]
      exact hvis
    · intro h
      exact ⟨emittedQuad e c segBy byv bz bx n,
        mem_addFacesCell_iff.mpr ⟨hsolid, n, hn, h, rfl⟩, rfl⟩
  refine ⟨hi.trans interiorVisible_iff, hb.trans boundaryVisible_iff, ?_, ?_⟩
  · intro hEq hex
    rcases (hi.trans interiorVisible_iff).mp hex with h0 | ⟨hne, -⟩
    · exact hsolid (by rw [← hEq, h0])
    · exact hne hEq
  · intro hEq hex
    rcases (hb.trans boundaryVisible_iff).mp hex with h0 | ⟨hne, -⟩
    · exact hsolid (by rw [← hEq, h0])
    · exact hne hEq

theorem C1_face_visibility_rule_witness :
    (wChunk.blockData (cellIndex 5 5 5) >>> 8 ≠ 0) ∧ (0 < 6) ∧
    ((∃ q ∈ interiorCellFaces wEnv wChunk 0 5 5 5, q.face = 0) ↔
      (interiorNeighbors wChunk 5 (cellIndex 5 5 5)
          (wChunk.blockData (cellIndex 5 5 5)) 0 = 0 ∨
       (interiorNeighbors wChunk 5 (cellIndex 5 5 5)
          (wChunk.blockData (cellIndex 5 5 5)) 0 ≠
            wChunk.blockData (cellIndex 5 5 5) >>> 8 ∧
        (wEnv.blockSet.getBlockWithId (interiorNeighbors wChunk 5 (cellIndex 5 5 5)
          (wChunk.blockData (cellIndex 5 5 5)) 0)).material.flags &&& MERGE ≠ 0))) :=
  ⟨by decide, by decide,
    (C1_face_visibility_rule wEnv wChunk 0 5 5 5 0 (fun _ => none)
      (by decide) (by decide)).1⟩

/-- C2: the fast interior path and the slow boundary path, run on the same
cell data at any position where both are applicable (the interior footprint,
where none of the boundary path's chunk-edge branches fire), emit exactly the
same face list — same directions and same texture slots. -/
theorem C2_cross_path_consistency (e : Env) (c : Chunk) (segBy byv bx bz : Nat)
    (nc : Fin 4 → Option Chunk)
    (hx1 : 1 ≤ bx) (hx2 : bx ≤ SIZE - 2) (hz1 : 1 ≤ bz) (hz2 : bz ≤ SIZE - 2) :
    addFacesCell e c segBy bx bz byv nc = interiorCellFaces e c segBy byv bz bx := by
  have hx2' : bx ≤ 14 := hx2
  have hz2' : bz ≤ 14 := hz2
  have hnb : boundaryNeighbors c nc bx bz byv (cellIndex bx byv bz)
      (c.blockData (cellIndex bx byv bz)) =
      interiorNeighbors c byv (cellIndex bx byv bz)
        (c.blockData (cellIndex bx byv bz)) := by
    funext n
    have h15z : ¬ bz = SIZE - 1 := by unfold SIZE; omega
    have h0z : ¬ bz = 0 := by omega
    have h15x : ¬ bx = SIZE - 1 := by unfold SIZE; omega
    have h0x : ¬ bx = 0 := by omega
    rcases n with _ | _ | _ | _ | _ | n
    · simp only [boundaryNeighbors, interiorNeighbors, if_neg h15z]
    · simp only [boundaryNeighbors, interiorNeighbors, if_neg h0z]
    · rfl
    · rfl
    · simp only [boundaryNeighbors, interiorNeighbors, if_neg h15x]
    · simp only [boundaryNeighbors, interiorNeighbors, if_neg h0x]
  simp only [addFacesCell, interiorCellFaces, hnb,
    boundaryVisible_eq_interiorVisible]

theorem C2_cross_path_consistency_witness :
    ((1 : Nat) ≤ 5 ∧ (5 : Nat) ≤ SIZE - 2) ∧
    addFacesCell wEnv wChunk 0 5 5 5 (fun _ => none) =
      interiorCellFaces wEnv wChunk 0 5 5 5 :=
  ⟨⟨by decide, by decide⟩,
    C2_cross_path_consistency wEnv wChunk 0 5 5 5 (fun _ => none)
      (by decide) (by decide) (by decide) (by decide)⟩

theorem y_of_mem_interiorCellFaces {e : Env} {c : Chunk} {segBy byv bz bx : Nat}
    {q : Quad} (h : q ∈ interiorCellFaces e c segBy byv bz bx) :
    q.y = byv - segBy := by
  obtain ⟨-, n, -, -, rfl⟩ := mem_interiorCellFaces_iff.mp h
  rfl

theorem y_of_mem_addFacesCell {e : Env} {c : Chunk} {segBy bx bz byv : Nat}
    {nc : Fin 4 → Option Chunk} {q : Quad}
    (h : q ∈ addFacesCell e c segBy bx bz byv nc) : q.y = byv - segBy := by
  obtain ⟨-, n, -, -, rfl⟩ := mem_addFacesCell_iff.mp h
  rfl

theorem pairwise_le_of_all_eq {l : List Nat} {v : Nat} (h : ∀ x ∈ l, x = v) :
    List.Pairwise (· ≤ ·) l := by
  induction l with
  | nil => constructor
  | cons a t ih =>
    constructor
    · intro b hb
      rw [h a (List.mem_cons_self a t), h b (List.mem_cons_of_mem a hb)]
    · exact ih fun x hx => h x (List.mem_cons_of_mem a hx)

theorem sorted_flatMap_range {f : Nat → List Nat} {g : Nat → Nat} (m : Nat)
    (h : ∀ i, ∀ x ∈ f i, x = g i) (mono : ∀ i j, i ≤ j → g i ≤ g j) :
    List.Sorted (· ≤ ·) ((List.range m).flatMap f) := by
  induction m with
  | zero => simp [List.Sorted]
  | succ k ih =>
    rw [List.range_succ, List.flatMap_append]
    rw [List.Sorted, List.pairwise_append]
    refine ⟨ih, ?_, ?_⟩
    · refine pairwise_le_of_all_eq (v := g k) ?_
      intro x hx
      obtain ⟨i, hi, hxi⟩ := List.mem_flatMap.mp hx
      obtain rfl : i = k := by simpa using hi
      exact h i x hxi
    · intro a ha b hb
      obtain ⟨i, hi, hai⟩ := List.mem_flatMap.mp ha
      obtain ⟨j, hj, hbj⟩ := List.mem_flatMap.mp hb
      obtain rfl : j = k := by simpa using hj
      have hik : i < j := List.mem_range.mp hi
      rw [h i a hai, h j b hbj]
      exact mono i j (Nat.le_of_lt hik)

/-- `addFacesCell` emits face `n` whenever the computed neighbor id is 0. -/
theorem addFacesCell_face_of_nbr_zero {e : Env} {c : Chunk}
    {segBy bx bz byv n : Nat} {nc : Fin 4 → Option Chunk}
    (hsolid : c.blockData (cellIndex bx byv bz) >>> 8 ≠ 0) (hn : n < 6)
    (h0 : boundaryNeighbors c nc bx bz byv (cellIndex bx byv bz)
      (c.blockData (cellIndex bx byv bz)) n = 0) :
    ∃ q ∈ addFacesCell e c segBy bx bz byv nc, q.face = n :=
  ⟨emittedQuad e c segBy byv bz bx n,
    mem_addFacesCell_iff.mpr
      ⟨hsolid, n, hn, boundaryVisible_iff.mpr (Or.inl h0), rfl⟩, rfl⟩

/-- `addFacesCell` never emits face `n` when the computed neighbor id equals
the cell's own id. -/
theorem addFacesCell_no_face_of_nbr_eq {e : Env} {c : Chunk}
    {segBy bx bz byv n : Nat} {nc : Fin 4 → Option Chunk}
    (hsolid : c.blockData (cellIndex bx byv bz) >>> 8 ≠ 0)
    (hEq : boundaryNeighbors c nc bx bz byv (cellIndex bx byv bz)
      (c.blockData (cellIndex bx byv bz)) n =
        c.blockData (cellIndex bx byv bz) >>> 8) :
    ¬ ∃ q ∈ addFacesCell e c segBy bx bz byv nc, q.face = n := by
  rintro ⟨q, hq, hf⟩
  obtain ⟨-, m, -, hvis, rfl⟩ := mem_addFacesCell_iff.mp hq
  have hmn : m = n := hf
  subst hmn
  rcases boundaryVisible_iff.mp hvis with h0 | ⟨hne, -⟩
  · exact hsolid (by rw [← hEq, h0])
  · exact hne hEq




/-- C4: in the boundary pass, when the lateral neighbor cell of a
boundary-ring block lies in a neighbor chunk that is not loaded, the neighbor
is treated as id 0 and the face toward the unloaded chunk is emitted, never
suppressed; when that chunk is loaded and holds a solid non-merging block of
the same type at the adjacent cell, the shared face is suppressed. -/
theorem C4_unloaded_neighbor_policy (e : Env) (c : Chunk)
    (segBy bx bz byv n : Nat) (nc : Fin 4 → Option Chunk)
    (hcross : crossing bx bz n)
    (hsolid : c.blockData (cellIndex bx byv bz) >>> 8 ≠ 0) :
    (lateralChunk nc n = none →
      ∃ q ∈ addFacesCell e c segBy bx bz byv nc, q.face = n) ∧
    (∀ ch, lateralChunk nc n = some ch →
      lateralNeighborId c ch bx bz byv n =
        c.blockData (cellIndex bx byv bz) >>> 8 →
      (e.blockSet.getBlockWithId
        (lateralNeighborId c ch bx bz byv n)).material.flags &&& MERGE = 0 →
      ¬ ∃ q ∈ addFacesCell e c segBy bx bz byv nc, q.face = n) := by
  have hidlt : c.blockData (cellIndex bx byv bz) >>> 8 < 65536 :=
    blockId_lt c (cellIndex bx byv bz)
  rcases hcross with ⟨rfl, rfl⟩ | ⟨rfl, rfl⟩ | ⟨rfl, rfl⟩ | ⟨rfl, rfl⟩
  all_goals constructor
  · intro hnone
    have hnc : nc 3 = none := hnone
    refine addFacesCell_face_of_nbr_zero hsolid (by norm_num) ?_
    simp [boundaryNeighbors, hnc]
  · intro ch hch hid _
    have hnc : nc 3 = some ch := hch
    refine addFacesCell_no_face_of_nbr_eq hsolid ?_
    simp only [boundaryNeighbors, hnc, if_pos rfl]
    rw [show (ch.getBlock (c.x + ↑bx) byv (c.z + ↑(SIZE - 1) + 1) >>> 8) =
        lateralNeighborId c ch bx (SIZE - 1) byv 0 from rfl, hid]
    exact Nat.mod_eq_of_lt hidlt
  · intro hnone
    have hnc : nc 2 = none := hnone
    refine addFacesCell_face_of_nbr_zero hsolid (by norm_num) ?_
    simp [boundaryNeighbors, hnc]
  · intro ch hch hid _
    have hnc : nc 2 = some ch := hch
    refine addFacesCell_no_face_of_nbr_eq hsolid ?_
    simp only [boundaryNeighbors, hnc, if_pos rfl]
    rw [show (ch.getBlock (c.x + ↑bx) byv (c.z + ↑(0 : Nat) - 1) >>> 8) =
        lateralNeighborId c ch bx 0 byv 1 from rfl, hid]
    exact Nat.mod_eq_of_lt hidlt
  · intro hnone
    have hnc : nc 1 = none := hnone
    refine addFacesCell_face_of_nbr_zero hsolid (by norm_num) ?_
    simp [boundaryNeighbors, hnc]
  · intro ch hch hid _
    have hnc : nc 1 = some ch := hch
    refine addFacesCell_no_face_of_nbr_eq hsolid ?_
    simp only [boundaryNeighbors, hnc, if_pos rfl]
    rw [show (ch.getBlock (c.x + ↑(SIZE - 1) + 1) byv (c.z + ↑bz) >>> 8) =
        lateralNeighborId c ch (SIZE - 1) bz byv 4 from rfl, hid]
    exact Nat.mod_eq_of_lt hidlt
  · intro hnone
    have hnc : nc 0 = none := hnone
    refine addFacesCell_face_of_nbr_zero hsolid (by norm_num) ?_
    simp [boundaryNeighbors, hnc]
  · intro ch hch hid _
    have hnc : nc 0 = some ch := hch
    refine addFacesCell_no_face_of_nbr_eq hsolid ?_
    simp only [boundaryNeighbors, hnc, if_pos rfl]
    rw [show (ch.getBlock (c.x + ↑(0 : Nat) - 1) byv (c.z + ↑bz) >>> 8) =
        lateralNeighborId c ch 0 bz byv 5 from rfl, hid]
    exact Nat.mod_eq_of_lt hidlt


theorem C4_unloaded_neighbor_policy_witness :
    crossing 3 (SIZE - 1) 0 ∧
    (c4Chunk.blockData (cellIndex 3 2 (SIZE - 1)) >>> 8 ≠ 0) ∧
    (∃ q ∈ addFacesCell wEnv c4Chunk 0 3 (SIZE - 1) 2 (fun _ => none),
      q.face = 0) :=
  ⟨Or.inl ⟨rfl, rfl⟩, by decide,
    (C4_unloaded_neighbor_policy wEnv c4Chunk 0 3 (SIZE - 1) 2 0 (fun _ => none)
      (Or.inl ⟨rfl, rfl⟩) (by decide)).1 rfl⟩

/-- Every quad of `buildFaces` comes from one of the two passes applied to
some cell at or above the segment base. -/
theorem mem_buildFaces_elim {e : Env} {c : Chunk} {segBy : Nat} {q : Quad}
    (h : q ∈ buildFaces e c segBy) :
    ∃ bx bz byv, segBy ≤ byv ∧
      (q ∈ interiorCellFaces e c segBy byv bz bx ∨
       q ∈ addFacesCell e c segBy bx bz byv (buildNeighborChunks e c)) := by
  rcases List.mem_append.mp h with h | h
  · unfold interiorPass at h
    simp only [List.mem_flatMap, List.mem_range] at h
    obtain ⟨dy, -, dz, -, dx, -, hq⟩ := h
    exact ⟨1 + dx, 1 + dz, segBy + dy, Nat.le_add_right _ _, Or.inl hq⟩
  · unfold boundaryPass addFaces at h
    rcases List.mem_append.mp h with h | h
    rcases List.mem_append.mp h with h | h
    rcases List.mem_append.mp h with h | h
    all_goals
      simp only [List.mem_flatMap, List.mem_range] at h
      obtain ⟨j, -, i, -, hq⟩ := h
      exact ⟨_, _, segBy + i, Nat.le_add_right _ _, Or.inr hq⟩

/-- At `byv = 0` the interior pass's below-bottom neighbor is the cell
itself, so a solid cell never passes the visibility test for face 3. -/
theorem interiorCellFaces_no_bottom {e : Env} {c : Chunk} {segBy bz bx : Nat}
    {q : Quad} (h : q ∈ interiorCellFaces e c segBy 0 bz bx) : q.face ≠ 3 := by
  obtain ⟨hsolid, n, -, hvis, rfl⟩ := mem_interiorCellFaces_iff.mp h
  intro hf
  have hn3 : n = 3 := hf
  subst hn3
  have hnbr : interiorNeighbors c 0 (cellIndex bx 0 bz)
      (c.blockData (cellIndex bx 0 bz)) 3 =
      c.blockData (cellIndex bx 0 bz) >>> 8 := by
    simp only [interiorNeighbors, if_pos rfl]
    exact Nat.mod_eq_of_lt (blockId_lt c _)
  rcases interiorVisible_iff.mp hvis with h0 | ⟨hne, -⟩
  · exact hsolid (by rw [← hnbr, h0])
  · exact hne hnbr

/-- Same for the boundary pass. -/
theorem addFacesCell_no_bottom {e : Env} {c : Chunk} {segBy bx bz : Nat}
    {nc : Fin 4 → Option Chunk} {q : Quad}
    (h : q ∈ addFacesCell e c segBy bx bz 0 nc) : q.face ≠ 3 := by
  obtain ⟨hsolid, n, -, hvis, rfl⟩ := mem_addFacesCell_iff.mp h
  intro hf
  have hn3 : n = 3 := hf
  subst hn3
  have hnbr : boundaryNeighbors c nc bx bz 0 (cellIndex bx 0 bz)
      (c.blockData (cellIndex bx 0 bz)) 3 =
      c.blockData (cellIndex bx 0 bz) >>> 8 := by
    simp only [boundaryNeighbors, if_pos rfl]
    exact Nat.mod_eq_of_lt (blockId_lt c _)
  rcases boundaryVisible_iff.mp hvis with h0 | ⟨hne, -⟩
  · exact hsolid (by rw [← hnbr, h0])
  · exact hne hnbr

/-- C5: for every solid block at world Y = 0, `build()` never emits a -Y
(bottom, face index 3) face, regardless of any material's flags, because the
below-bottom vertical neighbor is taken equal to the current cell itself;
symmetrically, both passes treat the above-top neighbor (`byv ≥ SIZE_Y - 1`)
as air: the +Y neighbor id is 0 there. -/
theorem C5_vertical_edge_policy :
    (∀ (e : Env) (c : Chunk) (segBy : Nat) (q : Quad),
      q ∈ buildFaces e c segBy → q.y + segBy = 0 → q.face ≠ 3) ∧
    (∀ (c : Chunk) (nc : Fin 4 → Option Chunk) (bx bz byv bo data : Nat),
      SIZE_Y - 1 ≤ byv →
      interiorNeighbors c byv bo data 2 = 0 ∧
      boundaryNeighbors c nc bx bz byv bo data 2 = 0) := by
  constructor
  · intro e c segBy q hq hy0
    obtain ⟨bx, bz, byv, hle, hc | hc⟩ := mem_buildFaces_elim hq
    · have hy : q.y = byv - segBy := y_of_mem_interiorCellFaces hc
      have hbyv : byv = 0 := by omega
      subst hbyv
      exact interiorCellFaces_no_bottom hc
    · have hy : q.y = byv - segBy := y_of_mem_addFacesCell hc
      have hbyv : byv = 0 := by omega
      subst hbyv
      exact addFacesCell_no_bottom hc
  · intro c nc bx bz byv bo data htop
    constructor
    · simp [interiorNeighbors, htop]
    · simp [boundaryNeighbors, htop]

theorem C5_vertical_edge_policy_witness :
    ((⟨0, 0, 0, 0, 257⟩ : Quad) ∈ buildFaces wEnv c3Chunk 0) ∧
    ((0 : Nat) + 0 = 0) ∧ (SIZE_Y - 1 ≤ 255) ∧
    ((⟨0, 0, 0, 0, 257⟩ : Quad).face ≠ 3) ∧
    (interiorNeighbors c3Chunk 255 (cellIndex 3 255 3)
        (c3Chunk.blockData (cellIndex 3 255 3)) 2 = 0 ∧
     boundaryNeighbors c3Chunk (fun _ => none) 3 3 255 (cellIndex 3 255 3)
        (c3Chunk.blockData (cellIndex 3 255 3)) 2 = 0) :=
  by
  refine ⟨?_, rfl, by decide, ?_, ?_⟩
  · decide
  · exact C5_vertical_edge_policy.1 wEnv c3Chunk 0 ⟨0, 0, 0, 0, 257⟩
      (by decide) rfl
  · exact C5_vertical_edge_policy.2 c3Chunk (fun _ => none) 3 3 255
      (cellIndex 3 255 3) (c3Chunk.blockData (cellIndex 3 255 3)) (by decide)

/-- C6: every emitted face of either pass decodes its packed cell as
id = `data >>> 8` (the full remaining high bits, selecting the block
descriptor), metadata = `(data >>> 16) % 256` and variant = `data % 65536`,
and those decoded fields are the ones passed to `getFaceSlot`. -/
theorem C6_cell_decode (e : Env) (c : Chunk) (segBy : Nat) (q : Quad)
    (hq : q ∈ buildFaces e c segBy) :
    q.texCoords = e.atlas
      ((e.blockSet.getBlockWithId
          (c.blockData (cellIndex q.x (q.y + segBy) q.z) >>> 8)).getFaceSlot
        q.x (q.y + segBy) q.z q.face
        ((c.blockData (cellIndex q.x (q.y + segBy) q.z) >>> 16) % 256)
        (c.blockData (cellIndex q.x (q.y + segBy) q.z) % 65536)) := by
  obtain ⟨bx, bz, byv, hle, hc | hc⟩ := mem_buildFaces_elim hq
  · obtain ⟨-, n, -, -, rfl⟩ := mem_interiorCellFaces_iff.mp hc
    have hyb : byv - segBy + segBy = byv := Nat.sub_add_cancel hle
    simp [emittedQuad, hyb]
  · obtain ⟨-, n, -, -, rfl⟩ := mem_addFacesCell_iff.mp hc
    have hyb : byv - segBy + segBy = byv := Nat.sub_add_cancel hle
    simp [emittedQuad, hyb]

theorem C6_cell_decode_witness :
    ((⟨0, 5, 5, 5, 272⟩ : Quad) ∈ buildFaces wEnv wChunk 0) ∧
    (⟨0, 5, 5, 5, 272⟩ : Quad).texCoords = wEnv.atlas
      ((wEnv.blockSet.getBlockWithId
          (wChunk.blockData (cellIndex 5 (5 + 0) 5) >>> 8)).getFaceSlot
        5 (5 + 0) 5 0
        ((wChunk.blockData (cellIndex 5 (5 + 0) 5) >>> 16) % 256)
        (wChunk.blockData (cellIndex 5 (5 + 0) 5) % 65536)) :=
  ⟨by decide, C6_cell_decode wEnv wChunk 0 ⟨0, 5, 5, 5, 272⟩ (by decide)⟩


/-- C3 counterexample: the faces emitted by `build()` are not ordered by
ascending Y — the interior pass runs over all Y layers first, then the
boundary pass starts again at the lowest Y, so global Y-ascending order fails
on this concrete input. -/
theorem C3_counterexample :
    ¬ List.Sorted (· ≤ ·) ((buildFaces wEnv c3Chunk 0).map Quad.y) := by decide

/-- C3, amended: for every fixed voxel configuration the face sequence of
`build()` is deterministic, and running `build()` twice with no intervening
mutation produces the identical face buffer and element count; the emission
order is: the interior pass first, Y ascending (then the fixed Z/X scan order,
then face index 0..5), followed by the boundary pass in its fixed ring scan
order, each boundary column Y ascending (then face index 0..5) — not a single
global Y-ascending order. -/
theorem C3_determinism_and_order :
    (∀ (e : Env) (s : SegmentRenderer),
      ((s.build e).1.build e).1.faceBuffer = (s.build e).1.faceBuffer ∧
      ((s.build e).1.build e).1.faceBufferElementCount =
        (s.build e).1.faceBufferElementCount) ∧
    (∀ (e : Env) (c : Chunk) (segBy : Nat),
      List.Sorted (· ≤ ·) ((interiorPass e c segBy).map Quad.y)) ∧
    (∀ (e : Env) (c : Chunk) (segBy bx bz : Nat) (nc : Fin 4 → Option Chunk),
      List.Sorted (· ≤ ·)
        ((addFaces e c segBy bx segBy (segBy + SIZE - 1) bz nc).map Quad.y)) := by
  refine ⟨fun e s => ⟨rfl, rfl⟩, ?_, ?_⟩
  · intro e c segBy
    unfold interiorPass
    rw [List.map_flatMap]
    refine sorted_flatMap_range (g := fun dy => dy) SIZE ?_ fun i j hij => hij
    intro i x hx
    simp only [List.mem_map, List.mem_flatMap] at hx
    obtain ⟨q, ⟨dz, -, dx, -, hq⟩, rfl⟩ := hx
    rw [y_of_mem_interiorCellFaces hq]
    exact Nat.add_sub_cancel_left segBy i
  · intro e c segBy bx bz nc
    unfold addFaces
    rw [List.map_flatMap]
    refine sorted_flatMap_range (g := fun i => i) _ ?_ fun i j hij => hij
    intro i x hx
    simp only [List.mem_map] at hx
    obtain ⟨q, hq, rfl⟩ := hx
    rw [y_of_mem_addFacesCell hq]
    exact Nat.add_sub_cancel_left segBy i

/-- C7: every operation preserves the invariant that `estimatedSize` equals
the byte size of the buffer currently held (0 when no buffer): `build()` sets
`estimatedSize` to the byte size of the newly finished buffer and returns
exactly the new `estimatedSize` minus the old, so over N consecutive
`build()` calls the returned deltas telescope to the final `estimatedSize`;
`discard()` resets `estimatedSize` to 0. -/
theorem C7_size_accounting :
    (∀ (e : Env) (s : SegmentRenderer), sizeInv ((s.build e).1)) ∧
    (∀ (e : Env) (s : SegmentRenderer),
      (s.build e).2 =
        ((s.build e).1.estimatedSize : Int) - (s.estimatedSize : Int)) ∧
    (∀ s : SegmentRenderer, sizeInv s.discard ∧ s.discard.estimatedSize = 0) ∧
    (∀ (e : Env) (s : SegmentRenderer) (n : Nat), s.estimatedSize = 0 →
      (buildRun e n s).2 = ((buildRun e n s).1.estimatedSize : Int)) := by
  have htel : ∀ (e : Env) (n : Nat) (s : SegmentRenderer),
      (buildRun e n s).2 =
        ((buildRun e n s).1.estimatedSize : Int) - (s.estimatedSize : Int) := by
    intro e n
    induction n with
    | zero => intro s; simp [buildRun]
    | succ k ih =>
      intro s
      have hstep2 : (buildRun e (k + 1) s).2 =
          (s.build e).2 + (buildRun e k ((s.build e).1)).2 := rfl
      have hstep1 : (buildRun e (k + 1) s).1 =
          (buildRun e k ((s.build e).1)).1 := rfl
      rw [hstep2, hstep1, ih ((s.build e).1)]
      have hd : (s.build e).2 =
          ((s.build e).1.estimatedSize : Int) - (s.estimatedSize : Int) := rfl
      rw [hd]
      ring
  refine ⟨fun e s => rfl, fun e s => rfl, fun s => ⟨rfl, rfl⟩,
    fun e s n h0 => ?_⟩
  rw [htel e n s, h0]
  simp

theorem C7_size_accounting_witness :
    (SegmentRenderer.create wChunk 0).estimatedSize = 0 ∧
    (buildRun wEnv 2 (SegmentRenderer.create wChunk 0)).2 =
      ((buildRun wEnv 2 (SegmentRenderer.create wChunk 0)).1.estimatedSize : Int) :=
  ⟨rfl, C7_size_accounting.2.2.2 wEnv (SegmentRenderer.create wChunk 0) 2 rfl⟩

/-- C8: `discard()` from any state releases the face buffer and any debug
buffer and zeroes the size accounting; a second `discard()` leaves the state
unchanged, and `render()` after `discard()` issues no draw call and mutates
no state. -/
theorem C8_discard_render_safety (s : SegmentRenderer) :
    s.discard.faceBuffer = none ∧
    s.discard.faceBufferElementCount = 0 ∧
    s.discard.estimatedSize = 0 ∧
    s.discard.debugLineBuffer = none ∧
    s.discard.discard = s.discard ∧
    s.discard.render.2 = none ∧
    s.discard.render.1 = s.discard ∧
    s.render.1 = s :=
  ⟨rfl, rfl, rfl, rfl, rfl, rfl, rfl, rfl⟩

/-- C9: a cell whose block id is 0 emits no faces in either pass, and the
block catalog lookup `getBlockWithId` is never consulted at id 0: the entire
output of `build()` is unchanged under any change to the catalog's entry for
id 0 (the own-cell lookup is guarded by the air skip and the neighbor lookup
is short-circuited when the neighbor id is 0). -/
theorem C9_air_skip_and_no_id_zero_lookup :
    (∀ (e : Env) (c : Chunk) (segBy byv bz bx : Nat) (nc : Fin 4 → Option Chunk),
      c.blockData (cellIndex bx byv bz) >>> 8 = 0 →
      interiorCellFaces e c segBy byv bz bx = [] ∧
      addFacesCell e c segBy bx bz byv nc = []) ∧
    (∀ (bs1 bs2 : BlockSet) (atlas : Nat → Nat)
        (view : Int → Int → Int → Option Chunk) (c : Chunk) (segBy : Nat),
      (∀ i, i ≠ 0 → bs1.getBlockWithId i = bs2.getBlockWithId i) →
      buildFaces ⟨bs1, atlas, view⟩ c segBy =
        buildFaces ⟨bs2, atlas, view⟩ c segBy) := by
  constructor
  · intro e c segBy byv bz bx nc hair
    constructor
    · unfold interiorCellFaces
      rw [if_pos hair]
    · unfold addFacesCell
      rw [if_pos hair]
  · intro bs1 bs2 atlas view c segBy hbs
    have hcellI : ∀ segBy byv bz bx,
        interiorCellFaces ⟨bs1, atlas, view⟩ c segBy byv bz bx =
        interiorCellFaces ⟨bs2, atlas, view⟩ c segBy byv bz bx := by
      intro segBy byv bz bx
      unfold interiorCellFaces
      by_cases hsolid : c.blockData (cellIndex bx byv bz) >>> 8 = 0
      · rw [if_pos hsolid, if_pos hsolid]
      · rw [if_neg hsolid, if_neg hsolid]
        have hf : ∀ n : Nat,
            interiorVisible bs1 (c.blockData (cellIndex bx byv bz))
              (interiorNeighbors c byv (cellIndex bx byv bz)
                (c.blockData (cellIndex bx byv bz)) n) =
            interiorVisible bs2 (c.blockData (cellIndex bx byv bz))
              (interiorNeighbors c byv (cellIndex bx byv bz)
                (c.blockData (cellIndex bx byv bz)) n) := by
          intro n
          by_cases h0 : interiorNeighbors c byv (cellIndex bx byv bz)
              (c.blockData (cellIndex bx byv bz)) n = 0
          · rw [h0]
            rfl
          · unfold interiorVisible
            rw [hbs _ h0]
        refine List.filterMap_congr ?_
        intro n _
        rw [hf n, hbs _ hsolid]
    have hcellB : ∀ segBy bx bz byv (nc : Fin 4 → Option Chunk),
        addFacesCell ⟨bs1, atlas, view⟩ c segBy bx bz byv nc =
        addFacesCell ⟨bs2, atlas, view⟩ c segBy bx bz byv nc := by
      intro segBy bx bz byv nc
      unfold addFacesCell
      by_cases hsolid : c.blockData (cellIndex bx byv bz) >>> 8 = 0
      · rw [if_pos hsolid, if_pos hsolid]
      · rw [if_neg hsolid, if_neg hsolid]
        have hf : ∀ n : Nat,
            boundaryVisible bs1 (c.blockData (cellIndex bx byv bz))
              (boundaryNeighbors c nc bx bz byv (cellIndex bx byv bz)
                (c.blockData (cellIndex bx byv bz)) n) =
            boundaryVisible bs2 (c.blockData (cellIndex bx byv bz))
              (boundaryNeighbors c nc bx bz byv (cellIndex bx byv bz)
                (c.blockData (cellIndex bx byv bz)) n) := by
          intro n
          by_cases h0 : boundaryNeighbors c nc bx bz byv (cellIndex bx byv bz)
              (c.blockData (cellIndex bx byv bz)) n = 0
          · rw [h0]
            rfl
          · unfold boundaryVisible
            rw [hbs _ h0]
        refine List.filterMap_congr ?_
        intro n _
        rw [hf n, hbs _ hsolid]
    have hnc : buildNeighborChunks ⟨bs1, atlas, view⟩ c =
        buildNeighborChunks ⟨bs2, atlas, view⟩ c := rfl
    unfold buildFaces interiorPass boundaryPass addFaces
    rw [hnc]
    simp only [hcellI, hcellB]

theorem C9_air_skip_and_no_id_zero_lookup_witness :
    (wChunk.blockData (cellIndex 2 2 2) >>> 8 = 0) ∧
    interiorCellFaces wEnv wChunk 0 2 2 2 = [] ∧
    buildFaces ⟨wBlockSet, id, fun _ _ _ => none⟩ wChunk 0 =
      buildFaces ⟨wBlockSet0, id, fun _ _ _ => none⟩ wChunk 0 :=
  ⟨by decide,
   (C9_air_skip_and_no_id_zero_lookup.1 wEnv wChunk 0 2 2 2 (fun _ => none)
     (by decide)).1,
   C9_air_skip_and_no_id_zero_lookup.2 wBlockSet wBlockSet0 id
     (fun _ _ _ => none) wChunk 0
     (fun i hi => by simp [wBlockSet0, if_neg hi])⟩

/-- C10: `invalidate()` is idempotent and modifies only the dirty flag,
setting it to true; the buffer handle, element count, `estimatedSize`, queue
state, debug buffer, transform and bounding volume are all unchanged. -/
theorem C10_invalidate_only_dirty (s : SegmentRenderer) :
    s.invalidate.dirty = true ∧
    s.invalidate.invalidate = s.invalidate ∧
    s.invalidate.chunk = s.chunk ∧
    s.invalidate.segBy = s.segBy ∧
    s.invalidate.worldMatrix = s.worldMatrix ∧
    s.invalidate.boundingSphere = s.boundingSphere ∧
    s.invalidate.faceBuffer = s.faceBuffer ∧
    s.invalidate.faceBufferElementCount = s.faceBufferElementCount ∧
    s.invalidate.estimatedSize = s.estimatedSize ∧
    s.invalidate.sortKey = s.sortKey ∧
    s.invalidate.lastFrameInViewport = s.lastFrameInViewport ∧
    s.invalidate.queuedForBuild = s.queuedForBuild ∧
    s.invalidate.queuePriority = s.queuePriority ∧
    s.invalidate.debugVisuals = s.debugVisuals ∧
    s.invalidate.debugLineBuffer = s.debugLineBuffer :=
  ⟨rfl, rfl, rfl, rfl, rfl, rfl, rfl, rfl, rfl, rfl, rfl, rfl, rfl, rfl, rfl⟩

end BlkSpec
